import Mathlib

/-!
Verification of the `perfix` image inverter (`src/invert.py`).

The program opens an image, normalizes its color mode to RGB when it is
neither RGB nor RGBA, inverts each 8-bit color sample as `255 - value`
(splitting off and reattaching the alpha channel when present), saves the
result, and reports success or failure with exit status 0 or 1.

The embedding below follows the source line by line.  An `Image` is a
decoded bitmap: a color mode, pixel dimensions, and a row-major list of
pixels, each pixel a list of 8-bit samples (one per channel of the mode).
The Pillow primitives the program uses (`Image.convert`, `Image.split`,
`Image.merge`, `ImageOps.invert`) are modelled on this representation.
The filesystem and the exceptions it raises are abstracted into an `Env`
telling what `Image.open` and `Image.save` do on this run.
-/

set_option autoImplicit false

/-- Color modes of the data model: single-channel grayscale (`L`),
three-channel color (`RGB`), three-channel color plus alpha (`RGBA`). -/
inductive Mode where
  | L
  | RGB
  | RGBA
deriving DecidableEq, Repr

/-- Number of channels declared by a mode. -/
def Mode.channels : Mode → Nat
  | .L => 1
  | .RGB => 3
  | .RGBA => 4

/-- A decoded in-memory bitmap: a mode, pixel dimensions, and a row-major
flat list of pixels, each pixel a list of samples. -/
structure Image where
  mode : Mode
  width : Nat
  height : Nat
  pixels : List (List Nat)
deriving DecidableEq, Repr

/-- Well-formedness: the pixel list fills the declared grid, each pixel has
one sample per channel of the declared mode, and samples are 8-bit. -/
def Image.wf (img : Image) : Prop :=
  img.pixels.length = img.width * img.height ∧
  ∀ p ∈ img.pixels, p.length = img.mode.channels ∧ ∀ v ∈ p, v ≤ 255

instance (img : Image) : Decidable img.wf := by
  unfold Image.wf; infer_instance

/-- Per-pixel effect of Pillow's `convert("RGB")`: grayscale replicates the
intensity into the three color channels, RGB is unchanged, RGBA drops the
alpha sample. -/
def convertPixelRGB : Mode → List Nat → List Nat
  | .L, p => [p.getD 0 0, p.getD 0 0, p.getD 0 0]
  | .RGB, p => p
  | .RGBA, p => [p.getD 0 0, p.getD 1 0, p.getD 2 0]

/-- Pillow's `img.convert("RGB")`: same grid, mode forced to RGB, each pixel
converted per the source mode. -/
def Image.convertRGB (img : Image) : Image :=
  { mode := .RGB, width := img.width, height := img.height,
    pixels := img.pixels.map (convertPixelRGB img.mode) }

/-- One band of Pillow's `img.split()`: the single-channel plane holding
sample `i` of every pixel. -/
def Image.getChannel (img : Image) (i : Nat) : Image :=
  { mode := .L, width := img.width, height := img.height,
    pixels := img.pixels.map (fun p => [p.getD i 0]) }

/-- Pillow's `img.split()`: one single-channel band per channel of the mode. -/
def Image.split (img : Image) : List Image :=
  (List.range img.mode.channels).map img.getChannel

/-- Pillow's `Image.merge(mode, bands)`: interleave the bands samplewise
into a single image of the given mode. -/
def Image.merge (m : Mode) (bands : List Image) : Image :=
  match bands with
  | [] => { mode := m, width := 0, height := 0, pixels := [] }
  | b :: bs =>
      { mode := m, width := b.width, height := b.height,
        pixels := bs.foldl (fun acc band => List.zipWith (· ++ ·) acc band.pixels) b.pixels }

namespace ImageOps

/-- Pillow's `ImageOps.invert`: every sample becomes `255 - value`.  The
program only ever applies it to RGB images. -/
def invert (image : Image) : Image :=
  { image with pixels := image.pixels.map (fun p => p.map (fun v => 255 - v)) }

end ImageOps

/-- The pure transformation performed inside the `try` block of
`invert_image`, producing the local variable `inverted`:
mode normalization, then either the RGBA split/invert/merge path or the
direct `ImageOps.invert` path.  `r, g, b, a = img.split()` is unfolded to
the four bands of the split. -/
def inverted (img0 : Image) : Image :=
  let img := if img0.mode = .RGB ∨ img0.mode = .RGBA then img0 else img0.convertRGB
  if img.mode = .RGBA then
    let r := img.getChannel 0
    let g := img.getChannel 1
    let b := img.getChannel 2
    let a := img.getChannel 3
    let rgb := Image.merge .RGB [r, g, b]
    let inverted_rgb := ImageOps.invert rgb
    Image.merge .RGBA (inverted_rgb.split ++ [a])
  else
    ImageOps.invert img

/-- Python exceptions the operation can raise: `FileNotFoundError`, a
`PermissionError` for an existing but unreadable file, or any other
exception (decode error, disk write failure, unsupported format), carrying
its textual description.  Only `fileNotFound` is an instance of Python's
`FileNotFoundError`. -/
inductive PyError where
  | fileNotFound
  | permissionDenied (msg : String)
  | otherError (msg : String)
deriving DecidableEq, Repr

/-- The textual description `str(e)` used by the generic handler. -/
def PyError.description : PyError → String
  | .fileNotFound => "No such file or directory"
  | .permissionDenied msg => msg
  | .otherError msg => msg

/-- What the filesystem does on this run: the outcome of
`Image.open(input_path)` and, for the image being saved, the outcome of
`inverted.save(output_path)` (`none` = success). -/
structure Env where
  openResult : Except PyError Image
  saveResult : Image → Option PyError

/-- Observable outcome of one run of `invert_image`: the process exit
status, the lines printed to standard output, and the image successfully
written to the output path, if any. -/
structure RunResult where
  exitCode : Nat
  printed : List String
  saved : Option Image
deriving DecidableEq, Repr

/-- The two `except` clauses, tried in source order: `FileNotFoundError`
prints the fixed message, any other exception prints its description;
both call `sys.exit(1)`. -/
def handleError (e : PyError) : RunResult :=
  match e with
  | .fileNotFound =>
      { exitCode := 1, printed := ["Error: logo.png not found in current directory."],
        saved := none }
  | e =>
      { exitCode := 1, printed := ["Error: " ++ e.description], saved := none }

/-- The whole `invert_image(input_path, output_path)` call: open the input,
compute `inverted`, save it, print the success message; any exception
raised inside the `try` block is dispatched to the `except` clauses.
Returning normally lets the process finish with exit status 0. -/
def invert_image (output_path : String) (env : Env) : RunResult :=
  match env.openResult with
  | .error e => handleError e
  | .ok img =>
      match env.saveResult (inverted img) with
      | some e => handleError e
      | none =>
          { exitCode := 0,
            printed := ["Saved inverted image as: " ++ output_path],
            saved := some (inverted img) }

/-- Output path used by `main`: `logo_inverted.png` in the working
directory. -/
def output_file : String := "logo_inverted.png"

/-! ### Closed forms for the transformation -/

lemma zipWith_append_map {α : Type} (f g : α → List Nat) (l : List α) :
    List.zipWith (· ++ ·) (l.map f) (l.map g) = l.map (fun x => f x ++ g x) := by
  induction l with
  | nil => rfl
  | cons a l ih => simp [ih]

lemma range_three : List.range 3 = [0, 1, 2] := rfl

lemma getD_cons_one (a : Nat) (l : List Nat) (d : Nat) :
    (a :: l).getD 1 d = l.getD 0 d := rfl

lemma getD_cons_two (a : Nat) (l : List Nat) (d : Nat) :
    (a :: l).getD 2 d = l.getD 1 d := rfl

lemma getD_cons_three (a : Nat) (l : List Nat) (d : Nat) :
    (a :: l).getD 3 d = l.getD 2 d := rfl

/-- Closed form of the transformation on an RGBA image: each pixel
`[r, g, b, a]` (read positionally) becomes `[255-r, 255-g, 255-b, a]`. -/
theorem inverted_eq_rgba (img : Image) (h : img.mode = .RGBA) :
    inverted img =
      { mode := .RGBA, width := img.width, height := img.height,
        pixels := img.pixels.map (fun p =>
          [255 - p.getD 0 0, 255 - p.getD 1 0, 255 - p.getD 2 0, p.getD 3 0]) } := by
  unfold inverted
  simp [h, Image.merge, Image.split, Image.getChannel, ImageOps.invert,
    Mode.channels, range_three, zipWith_append_map, List.map_map,
    Function.comp, getD_cons_one, getD_cons_two, getD_cons_three]

/-- Closed form of the transformation on an RGB image: every sample is
replaced by `255 - value`. -/
theorem inverted_eq_rgb (img : Image) (h : img.mode = .RGB) :
    inverted img =
      { mode := .RGB, width := img.width, height := img.height,
        pixels := img.pixels.map (fun p => p.map (fun v => 255 - v)) } := by
  unfold inverted
  simp [h, ImageOps.invert]

/-- Closed form of the transformation on a grayscale image: each pixel
`[v]` becomes the RGB pixel `[255-v, 255-v, 255-v]`. -/
theorem inverted_eq_l (img : Image) (h : img.mode = .L) :
    inverted img =
      { mode := .RGB, width := img.width, height := img.height,
        pixels := img.pixels.map (fun p =>
          [255 - p.getD 0 0, 255 - p.getD 0 0, 255 - p.getD 0 0]) } := by
  unfold inverted
  simp [h, Image.convertRGB, convertPixelRGB, ImageOps.invert, List.map_map,
    Function.comp]

lemma getD_map {α β : Type} (f : α → β) (l : List α) (i : Nat) (d : β) (d' : α)
    (hi : i < l.length) : (l.map f).getD i d = f (l.getD i d') := by
  rw [List.getD_eq_getElem _ _ (by simpa using hi), List.getD_eq_getElem _ _ hi,
    List.getElem_map]

lemma getD_mem {α : Type} (l : List α) (i : Nat) (d : α) (hi : i < l.length) :
    l.getD i d ∈ l := by
  rw [List.getD_eq_getElem _ _ hi]
  exact List.getElem_mem hi

/-! ### Claim theorems -/

/-- C1: for every decoded RGB or RGBA image, each color sample (red, green,
blue) of the output equals 255 minus the corresponding input color sample,
on the RGBA split path as well as on the direct no-alpha path. -/
theorem spec_c1_color_samples_inverted (img : Image) (hwf : img.wf)
    (hm : img.mode = .RGB ∨ img.mode = .RGBA)
    (i c : Nat) (hi : i < img.pixels.length) (hc : c < 3) :
    ((inverted img).pixels.getD i []).getD c 0
      = 255 - (img.pixels.getD i []).getD c 0 := by
  rcases hm with h | h
  · rw [inverted_eq_rgb img h]
    dsimp only
    rw [getD_map _ _ i [] [] hi]
    have hp := (hwf.2 (img.pixels.getD i []) (getD_mem _ i [] hi)).1
    rw [h] at hp
    exact getD_map _ _ c 0 0 (by rw [hp]; exact hc)
  · rw [inverted_eq_rgba img h]
    dsimp only
    rw [getD_map _ _ i [] [] hi]
    interval_cases c
    · rfl
    · rfl
    · rfl

/-- C2: for every RGBA input, every alpha sample of the output is
bit-for-bit equal to the corresponding input alpha sample. -/
theorem spec_c2_alpha_preserved (img : Image) (hwf : img.wf)
    (hm : img.mode = .RGBA) (i : Nat) (hi : i < img.pixels.length) :
    ((inverted img).pixels.getD i []).getD 3 0
      = (img.pixels.getD i []).getD 3 0 := by
  rw [inverted_eq_rgba img hm]
  dsimp only
  rw [getD_map _ _ i [] [] hi]
  rfl

/-- C4: an input whose mode is neither RGB nor RGBA is converted to
three-channel color; in particular a grayscale input yields an RGB output
in which each channel is 255 minus the original intensity. -/
theorem spec_c4_mode_normalization (img : Image) (hwf : img.wf)
    (h1 : img.mode ≠ .RGB) (h2 : img.mode ≠ .RGBA) :
    (inverted img).mode = .RGB ∧
    ∀ i, i < img.pixels.length →
      (inverted img).pixels.getD i []
        = [255 - (img.pixels.getD i []).getD 0 0,
           255 - (img.pixels.getD i []).getD 0 0,
           255 - (img.pixels.getD i []).getD 0 0] := by
  have hL : img.mode = .L := by
    cases hmode : img.mode <;> simp_all
  rw [inverted_eq_l img hL]
  refine ⟨rfl, fun i hi => ?_⟩
  dsimp only
  rw [getD_map _ _ i [] [] hi]

/-- C6: the concrete 2×1 RGBA scenario: pixels (10, 20, 30, 255) and
(0, 255, 128, 0) invert to (245, 235, 225, 255) and (255, 0, 127, 0). -/
theorem spec_c6_concrete_scenario :
    inverted { mode := .RGBA, width := 2, height := 1,
               pixels := [[10, 20, 30, 255], [0, 255, 128, 0]] } =
      { mode := .RGBA, width := 2, height := 1,
        pixels := [[245, 235, 225, 255], [255, 0, 127, 0]] } := by
  decide

/-- C7: the transformation preserves the pixel dimensions of the input:
width, height, and the number of pixels are unchanged for every input. -/
theorem spec_c7_dimensions_preserved (img : Image) :
    (inverted img).width = img.width ∧
    (inverted img).height = img.height ∧
    (inverted img).pixels.length = img.pixels.length := by
  cases hm : img.mode
  · rw [inverted_eq_l img hm]; simp
  · rw [inverted_eq_rgb img hm]; simp
  · rw [inverted_eq_rgba img hm]; simp

lemma invert_invert_pixel (p : List Nat) (hp : ∀ v ∈ p, v ≤ 255) :
    (p.map (fun v => 255 - v)).map (fun v => 255 - v) = p := by
  induction p with
  | nil => rfl
  | cons a p ih =>
      have ha : a ≤ 255 := hp a (by simp)
      simp only [List.map_cons]
      rw [ih (fun v hv => hp v (by simp [hv]))]
      congr 1
      omega

lemma invert_invert_pixels (l : List (List Nat))
    (hl : ∀ p ∈ l, ∀ v ∈ p, v ≤ 255) :
    (l.map (fun p => p.map (fun v => 255 - v))).map
        (fun p => p.map (fun v => 255 - v)) = l := by
  induction l with
  | nil => rfl
  | cons p l ih =>
      simp only [List.map_cons]
      rw [invert_invert_pixel p (hl p (by simp)),
        ih (fun q hq => hl q (by simp [hq]))]

lemma pixel_eta_four (p : List Nat) (hp : p.length = 4) :
    [p.getD 0 0, p.getD 1 0, p.getD 2 0, p.getD 3 0] = p := by
  rcases p with _ | ⟨a, p⟩
  · simp at hp
  rcases p with _ | ⟨b, p⟩
  · simp at hp
  rcases p with _ | ⟨c, p⟩
  · simp at hp
  rcases p with _ | ⟨d, p⟩
  · simp at hp
  rcases p with _ | ⟨e, p⟩
  · rfl
  · simp at hp

lemma rgba_pixel_invert_invert (p : List Nat) (hlen : p.length = 4)
    (hp : ∀ v ∈ p, v ≤ 255) :
    (fun q : List Nat =>
        [255 - q.getD 0 0, 255 - q.getD 1 0, 255 - q.getD 2 0, q.getD 3 0])
      ((fun q : List Nat =>
        [255 - q.getD 0 0, 255 - q.getD 1 0, 255 - q.getD 2 0, q.getD 3 0]) p)
    = p := by
  have h0 : p.getD 0 0 ≤ 255 := hp _ (getD_mem p 0 0 (by omega))
  have h1 : p.getD 1 0 ≤ 255 := hp _ (getD_mem p 1 0 (by omega))
  have h2 : p.getD 2 0 ≤ 255 := hp _ (getD_mem p 2 0 (by omega))
  dsimp only
  simp only [getD_cons_one, getD_cons_two, getD_cons_three, List.getD_cons_zero]
  rw [show 255 - (255 - p.getD 0 0) = p.getD 0 0 by omega,
    show 255 - (255 - p.getD 1 0) = p.getD 1 0 by omega,
    show 255 - (255 - p.getD 2 0) = p.getD 2 0 by omega]
  exact pixel_eta_four p hlen

/-- C5: for every well-formed RGB or RGBA image, applying the inversion
transformation twice restores the original image exactly: color channels
return to their original values by 255 - (255 - x) = x and the alpha
channel is unchanged. -/
theorem spec_c5_double_inversion (img : Image) (hwf : img.wf)
    (hm : img.mode = .RGB ∨ img.mode = .RGBA) :
    inverted (inverted img) = img := by
  obtain ⟨hlen, hpix⟩ := hwf
  rcases hm with h | h
  · rw [inverted_eq_rgb img h, inverted_eq_rgb _ rfl]
    dsimp only
    rw [invert_invert_pixels img.pixels (fun p hp => (hpix p hp).2)]
    cases img with
    | mk m w ht P => simp_all
  · rw [inverted_eq_rgba img h, inverted_eq_rgba _ rfl]
    dsimp only
    rw [List.map_map]
    have : ∀ p ∈ img.pixels,
        ((fun q : List Nat =>
            [255 - q.getD 0 0, 255 - q.getD 1 0, 255 - q.getD 2 0, q.getD 3 0]) ∘
          (fun q : List Nat =>
            [255 - q.getD 0 0, 255 - q.getD 1 0, 255 - q.getD 2 0, q.getD 3 0])) p
          = p := by
      intro p hp
      have hplen : p.length = 4 := by
        have := (hpix p hp).1
        rwa [h] at this
      exact rgba_pixel_invert_invert p hplen (hpix p hp).2
    rw [List.map_congr_left this]
    simp only [List.map_id']
    cases img with
    | mk m w ht P => simp_all

/-! ### Concrete runs used as witnesses and counterexamples -/

def imgRGBAw : Image :=
  { mode := .RGBA, width := 2, height := 1,
    pixels := [[1, 2, 3, 4], [250, 251, 252, 253]] }

def imgRGBw : Image :=
  { mode := .RGB, width := 1, height := 1, pixels := [[5, 100, 200]] }

def imgLw : Image :=
  { mode := .L, width := 2, height := 1, pixels := [[7], [250]] }

def envMissing : Env :=
  { openResult := .error .fileNotFound, saveResult := fun _ => none }

def envUnreadable : Env :=
  { openResult := .error (.permissionDenied "[Errno 13] Permission denied: logo.png"),
    saveResult := fun _ => none }

def envDecodeError : Env :=
  { openResult := .error (.otherError "cannot identify image file"),
    saveResult := fun _ => none }

def envSuccess : Env :=
  { openResult := .ok imgRGBAw, saveResult := fun _ => none }

def envSaveMissingDir : Env :=
  { openResult := .ok imgRGBAw, saveResult := fun _ => some .fileNotFound }

/-- C3 counterexample: an input file that exists but is unreadable raises a
`PermissionError`, which the generic handler reports with its own
description, not with the fixed "file not found" message, so
"missing or unreadable input implies the fixed message" is false. -/
theorem spec_c3_counterexample :
    envUnreadable.openResult
        = .error (.permissionDenied "[Errno 13] Permission denied: logo.png") ∧
    (invert_image output_file envUnreadable).exitCode = 1 ∧
    (invert_image output_file envUnreadable).printed
        ≠ ["Error: logo.png not found in current directory."] := by
  refine ⟨rfl, rfl, ?_⟩
  decide

/-- C3 (amended): the fixed "file not found" message with exit status 1 is
produced exactly by a `FileNotFoundError`, i.e. when the input file does
not exist; an unreadable-but-existing input instead gets the generic
message carrying the failure's description, still with exit status 1. -/
theorem spec_c3_missing_file_message (output_path : String) (env : Env) :
    (env.openResult = .error .fileNotFound →
      (invert_image output_path env).printed
          = ["Error: logo.png not found in current directory."] ∧
      (invert_image output_path env).exitCode = 1) ∧
    (∀ msg, env.openResult = .error (.permissionDenied msg) →
      (invert_image output_path env).printed = ["Error: " ++ msg] ∧
      (invert_image output_path env).exitCode = 1) := by
  constructor
  · intro h
    simp [invert_image, h, handleError]
  · intro msg h
    simp [invert_image, h, handleError, PyError.description]

theorem spec_c3_missing_file_message_witness :
    (invert_image output_file envMissing).printed
        = ["Error: logo.png not found in current directory."] ∧
    (invert_image output_file envMissing).exitCode = 1 :=
  (spec_c3_missing_file_message output_file envMissing).1 rfl

/-- C8: every failure other than a file-not-found error, whether raised
while opening or decoding the input or while saving the output, is
reported with the failure's textual description and exit status 1, and
nothing is saved. -/
theorem spec_c8_generic_failures (output_path : String) (env : Env) (msg : String)
    (h : env.openResult = .error (.permissionDenied msg) ∨
         env.openResult = .error (.otherError msg) ∨
         (∃ img, env.openResult = .ok img ∧
            env.saveResult (inverted img) = some (.permissionDenied msg)) ∨
         (∃ img, env.openResult = .ok img ∧
            env.saveResult (inverted img) = some (.otherError msg))) :
    (invert_image output_path env).exitCode = 1 ∧
    (invert_image output_path env).printed = ["Error: " ++ msg] ∧
    (invert_image output_path env).saved = none := by
  rcases h with h | h | ⟨img, h1, h2⟩ | ⟨img, h1, h2⟩
  · simp [invert_image, h, handleError, PyError.description]
  · simp [invert_image, h, handleError, PyError.description]
  · simp [invert_image, h1, h2, handleError, PyError.description]
  · simp [invert_image, h1, h2, handleError, PyError.description]

theorem spec_c8_generic_failures_witness :
    (invert_image output_file envDecodeError).exitCode = 1 ∧
    (invert_image output_file envDecodeError).printed
        = ["Error: " ++ "cannot identify image file"] ∧
    (invert_image output_file envDecodeError).saved = none :=
  spec_c8_generic_failures output_file envDecodeError "cannot identify image file"
    (Or.inr (Or.inl rfl))

/-- C9: on a successful run the program prints the success message
containing the output file path and terminates with exit status 0, having
saved the inverted image. -/
theorem spec_c9_success (output_path : String) (env : Env) (img : Image)
    (hopen : env.openResult = .ok img)
    (hsave : env.saveResult (inverted img) = none) :
    (invert_image output_path env).exitCode = 0 ∧
    (invert_image output_path env).printed
        = ["Saved inverted image as: " ++ output_path] ∧
    (invert_image output_path env).saved = some (inverted img) := by
  simp [invert_image, hopen, hsave]

theorem spec_c9_success_witness :
    (invert_image output_file envSuccess).exitCode = 0 ∧
    (invert_image output_file envSuccess).printed
        = ["Saved inverted image as: " ++ output_file] ∧
    (invert_image output_file envSuccess).saved = some (inverted imgRGBAw) :=
  spec_c9_success output_file envSuccess imgRGBAw rfl rfl

/-- C10: a `FileNotFoundError` raised while saving the output, after the
input was opened and decoded successfully, is caught by the same handler
as a missing input and yields the fixed "logo.png not found" message with
exit status 1. -/
theorem spec_c10_fnf_during_save (output_path : String) (env : Env) (img : Image)
    (hopen : env.openResult = .ok img)
    (hsave : env.saveResult (inverted img) = some .fileNotFound) :
    (invert_image output_path env).printed
        = ["Error: logo.png not found in current directory."] ∧
    (invert_image output_path env).exitCode = 1 := by
  simp [invert_image, hopen, hsave, handleError]

theorem spec_c10_fnf_during_save_witness :
    (invert_image output_file envSaveMissingDir).printed
        = ["Error: logo.png not found in current directory."] ∧
    (invert_image output_file envSaveMissingDir).exitCode = 1 :=
  spec_c10_fnf_during_save output_file envSaveMissingDir imgRGBAw rfl rfl

/-! ### Witnesses for the image-level claims -/

theorem spec_c1_witness :
    ((inverted imgRGBw).pixels.getD 0 []).getD 1 0
      = 255 - (imgRGBw.pixels.getD 0 []).getD 1 0 :=
  spec_c1_color_samples_inverted imgRGBw (by decide) (Or.inl rfl) 0 1
    (by decide) (by decide)

theorem spec_c2_witness :
    ((inverted imgRGBAw).pixels.getD 1 []).getD 3 0
      = (imgRGBAw.pixels.getD 1 []).getD 3 0 :=
  spec_c2_alpha_preserved imgRGBAw (by decide) rfl 1 (by decide)

theorem spec_c4_witness :
    (inverted imgLw).mode = .RGB ∧
    (inverted imgLw).pixels.getD 0 []
      = [255 - (imgLw.pixels.getD 0 []).getD 0 0,
         255 - (imgLw.pixels.getD 0 []).getD 0 0,
         255 - (imgLw.pixels.getD 0 []).getD 0 0] :=
  ⟨(spec_c4_mode_normalization imgLw (by decide) (by decide) (by decide)).1,
   (spec_c4_mode_normalization imgLw (by decide) (by decide) (by decide)).2 0
     (by decide)⟩

theorem spec_c5_witness :
    inverted (inverted imgRGBAw) = imgRGBAw :=
  spec_c5_double_inversion imgRGBAw (by decide) (Or.inr rfl)
